import Mathlib

/-
Formal model of the snake game in src/src/main.rs (Plasticcaz/snake).

Grid coordinates are f32 in the source, but every coordinate ever stored is
produced from integer literals by whole-unit steps, and both the movement
interval (0.2) and the tolerance band (0.1) are exact at the values involved,
so coordinates and times are embedded as rationals.

The external engine inputs consumed by one call to update — the
pressed-this-frame flags of the five keys, the frame time, and the random
number generator draws — are passed explicitly as a Frame record.  The Rust
update mutates the state in place and can panic (indexing parts[0] on an
empty body), so its embedding returns Option PlayState, none standing for
the panic.
-/

/-- Compass direction (enum Direction in main.rs). -/
inductive Direction where
  | North
  | South
  | West
  | East
  deriving DecidableEq, Repr, Fintype

/-- True iff the two directions are exact opposites (is_opposite_of). -/
def is_opposite_of (one other : Direction) : Bool :=
  match one, other with
  | .East, .West => true
  | .West, .East => true
  | .North, .South => true
  | .South, .North => true
  | _, _ => false

/-- A grid position, the pair of f32 coordinates modelled as rationals. -/
structure Position where
  x : ℚ
  y : ℚ
  deriving DecidableEq, Repr

/-- Tolerance equality (are_basically_eq): both axis deltas strictly inside
(-0.1, 0.1). -/
def are_basically_eq (a other : Position) : Bool :=
  let dx := a.x - other.x
  let dy := a.y - other.y
  decide (dx > -(1/10)) && decide (dx < 1/10) &&
    decide (dy > -(1/10)) && decide (dy < 1/10)

/-- One step from a position in a direction (next_position): North is y-1,
South y+1, West x-1, East x+1. -/
def next_position (p : Position) (direction : Direction) : Position :=
  match direction with
  | .North => ⟨p.x, p.y - 1⟩
  | .South => ⟨p.x, p.y + 1⟩
  | .West => ⟨p.x - 1, p.y⟩
  | .East => ⟨p.x + 1, p.y⟩

/-- The game state (struct PlayState). -/
structure PlayState where
  walls : List Position
  parts : List Position
  direction : Direction
  next_direction : Direction
  fruit : Position
  time_since_last_move : ℚ
  dead : Bool
  deriving DecidableEq, Repr

/-- random_position_on_board: each axis is rand::gen_range(1, 9), an engine
RNG draw uniform over the integers 1..8 (upper bound exclusive).  The draw is
supplied as an oracle value r, reduced into the range by 1 + r % 8. -/
def random_position_on_board (r : Nat × Nat) : Position :=
  ⟨((1 + r.1 % 8 : ℕ) : ℚ), ((1 + r.2 % 8 : ℕ) : ℚ)⟩

/-- reset_state: wall ring of the 11x11 board (top and bottom rows enumerated
x = 0..10, side columns y = 1..9), two-segment body at (2,1),(1,1), heading
and pending heading East, timer 0, random fruit, not dead. -/
def reset_state (r : Nat × Nat) : PlayState :=
  let walls : List Position :=
    ((List.range 11).flatMap fun x => [⟨(x : ℚ), 0⟩, ⟨(x : ℚ), 10⟩]) ++
      ((List.range 9).flatMap fun i => [⟨0, ((i + 1 : ℕ) : ℚ)⟩, ⟨10, ((i + 1 : ℕ) : ℚ)⟩])
  { walls := walls
    parts := [⟨2, 1⟩, ⟨1, 1⟩]
    direction := .East
    next_direction := .East
    fruit := random_position_on_board r
    time_since_last_move := 0
    dead := false }

/-- extend_snake_body: append one segment one unit behind the tail, mirrored
from the current heading; a state with no body segments is returned
unchanged. -/
def extend_snake_body (s : PlayState) : PlayState :=
  match s.parts.getLast? with
  | none => s
  | some last =>
    let new_part : Position :=
      match s.direction with
      | .North => ⟨last.x, last.y + 1⟩
      | .South => ⟨last.x, last.y - 1⟩
      | .West => ⟨last.x + 1, last.y⟩
      | .East => ⟨last.x - 1, last.y⟩
    { s with parts := s.parts ++ [new_part] }

/-- The engine inputs consumed by one call to update: the
is_key_pressed flags of Escape/Left/Right/Up/Down, the frame time
(get_frame_time), and the RNG draws used if reset_state or a fruit re-roll
happens this frame. -/
structure Frame where
  escape : Bool
  left : Bool
  right : Bool
  up : Bool
  down : Bool
  dt : ℚ
  rngReset : Nat × Nat
  rngFruit : Nat × Nat
  deriving DecidableEq, Repr

/-- input_to_direction: the mapped direction, if its key is newly pressed
and it is not the opposite of the current heading. -/
def input_to_direction (current : Direction) (pressed : Bool)
    (mapping : Direction) : Option Direction :=
  if pressed && !(is_opposite_of mapping current) then some mapping else none

/-- The direction-buffering chain of update (lines 123-127): first pressed
key among Left, Right, Up, Down whose direction is not opposite to the
current heading; otherwise the previous pending direction. -/
def buffer_core (current nxt : Direction) (left right up down : Bool) : Direction :=
  ((((input_to_direction current left .West).orElse
    fun _ => input_to_direction current right .East).orElse
    fun _ => input_to_direction current up .North).orElse
    fun _ => input_to_direction current down .South).getD nxt

/-- Direction buffering applied to a state. -/
def buffer_next_direction (s : PlayState) (f : Frame) : Direction :=
  buffer_core s.direction s.next_direction f.left f.right f.up f.down

/-- update (lines 113-162): Escape replaces the state with a fresh reset
state (and the frame continues on it); a dead state returns at once;
direction buffering; the timer gate at 0.2; on trigger the body shift, the
body and wall collision checks, and the fruit check with growth and
re-roll.  none models the parts[0] panic on an empty body. -/
def update (f : Frame) (s0 : PlayState) : Option PlayState :=
  let s := if f.escape then reset_state f.rngReset else s0
  if s.dead then some s
  else
    let s := { s with next_direction := buffer_next_direction s f }
    let t := s.time_since_last_move + f.dt
    if t < 1/5 then some { s with time_since_last_move := t }
    else
      match s.parts with
      | [] => none
      | p0 :: rest =>
        let s := { s with time_since_last_move := 0, direction := s.next_direction }
        let np := next_position p0 s.direction
        let tail2 := (p0 :: rest).dropLast
        let parts2 := np :: tail2
        let d1 := if tail2.any (fun it => are_basically_eq it np) then true else s.dead
        let d2 := if s.walls.any (fun it => are_basically_eq it np) then true else d1
        let s := { s with parts := parts2, dead := d2 }
        if are_basically_eq np s.fruit then
          let s := extend_snake_body s
          some { s with fruit := random_position_on_board f.rngFruit }
        else
          some s

/-- Iterated per-frame update over a list of frames (the main loop). -/
def run (fs : List Frame) (s : PlayState) : Option PlayState :=
  match fs with
  | [] => some s
  | f :: rest => (update f s).bind (run rest)

/-- Spec-side definition of the wall set, following the spec words: every
cell with x in \x7b0,10\x7d or y in \x7b0,10\x7d, for x,y in [0,10]. -/
def spec_perimeter : List Position :=
  (List.range 11).flatMap fun x =>
    (List.range 11).flatMap fun y =>
      if x = 0 ∨ x = 10 ∨ y = 0 ∨ y = 10 then [⟨(x : ℚ), (y : ℚ)⟩] else []

/-- Frame with no key pressed, zero frame time, fixed RNG draws. -/
def frame0 : Frame :=
  { escape := false, left := false, right := false, up := false, down := false
    dt := 0, rngReset := (0, 0), rngFruit := (0, 0) }

/-- Frame pressing Escape with a small positive frame time. -/
def fEsc : Frame := { frame0 with escape := true, dt := 1/10 }

/-- Frame with a small non-triggering frame time. -/
def fSmall : Frame := { frame0 with dt := 1/20 }

/-- Frame with a triggering frame time. -/
def fTrig : Frame := { frame0 with dt := 1/5 }

/-- The fresh state for the fixed RNG draw (0, 0); its fruit is (1, 1). -/
def sStart : PlayState := reset_state (0, 0)

/-- A dead variant of the fresh state. -/
def sDead : PlayState := { sStart with dead := true }

/-- A variant of the fresh state with no body segments. -/
def sEmpty : PlayState := { sStart with parts := [] }

/-- A variant of the fresh state with a three-segment body. -/
def sLong : PlayState := { sStart with parts := [⟨3, 1⟩, ⟨2, 1⟩, ⟨1, 1⟩] }

/-- A variant of the fresh state whose fruit sits one step ahead of the
head. -/
def sFruit : PlayState := { sStart with fruit := ⟨3, 1⟩ }

/-- A pressed Escape replaces the state with a fresh reset state and the
rest of the frame then runs on that fresh state. -/
theorem update_escape_eq (f : Frame) (s : PlayState) (he : f.escape = true) :
    update f s = update { f with escape := false } (reset_state f.rngReset) := by
  unfold update
  rw [he]
  rfl

/-- A dead state without Escape is returned unchanged. -/
theorem update_dead_frozen (f : Frame) (s : PlayState) (he : f.escape = false)
    (hd : s.dead = true) : update f s = some s := by
  unfold update
  rw [he]
  simp [hd]

/-- On a non-triggering frame only the pending direction and the timer
change. -/
theorem update_nontrigger (f : Frame) (s : PlayState) (he : f.escape = false)
    (hd : s.dead = false)
    (ht : s.time_since_last_move + f.dt < 1/5) :
    update f s = some { s with
      next_direction := buffer_next_direction s f
      time_since_last_move := s.time_since_last_move + f.dt } := by
  unfold update
  rw [he]
  simp [hd, ht]
  intro h
  linarith

/-- A triggering frame on an empty body hits the parts[0] panic. -/
theorem update_empty_trigger (f : Frame) (s : PlayState) (he : f.escape = false)
    (hd : s.dead = false) (hp : s.parts = [])
    (ht : ¬ (s.time_since_last_move + f.dt < 1/5)) :
    update f s = none := by
  unfold update
  rw [he]
  simp [hd, hp]
  linarith [not_lt.mp ht]

/-- Full evaluation of a triggering frame on a non-empty body. -/
theorem update_trigger (f : Frame) (s : PlayState) (p0 : Position) (rest : List Position)
    (he : f.escape = false) (hd : s.dead = false) (hp : s.parts = p0 :: rest)
    (ht : ¬ (s.time_since_last_move + f.dt < 1/5)) :
    update f s =
      (let nd := buffer_next_direction s f
      let np := next_position p0 nd
      let tail2 := (p0 :: rest).dropLast
      let d2 := (s.walls.any fun it => are_basically_eq it np) ||
        (tail2.any fun it => are_basically_eq it np)
      let s2 : PlayState := { s with
        parts := np :: tail2
        direction := nd
        next_direction := nd
        time_since_last_move := 0
        dead := d2 }
      if are_basically_eq np s2.fruit then
        some { extend_snake_body s2 with fruit := random_position_on_board f.rngFruit }
      else some s2) := by
  unfold update
  rw [he]
  simp only [hd, Bool.false_eq_true, if_false, hp]
  rw [if_neg]
  · simp [hd, List.any_eq]
  · simpa using ht

/-- extend_snake_body evaluated when the tail exists. -/
theorem extend_snake_body_eq (s : PlayState) (lastp : Position)
    (h : s.parts.getLast? = some lastp) :
    extend_snake_body s = { s with parts := s.parts ++
      [match s.direction with
        | .North => (⟨lastp.x, lastp.y + 1⟩ : Position)
        | .South => ⟨lastp.x, lastp.y - 1⟩
        | .West => ⟨lastp.x + 1, lastp.y⟩
        | .East => ⟨lastp.x - 1, lastp.y⟩] } := by
  unfold extend_snake_body
  rw [h]

/-- extend_snake_body on an empty body is the identity. -/
theorem extend_snake_body_empty (s : PlayState) (h : s.parts = []) :
    extend_snake_body s = s := by
  unfold extend_snake_body
  rw [h]
  rfl

/-- No direction is its own opposite. -/
theorem is_opposite_of_self (d : Direction) : is_opposite_of d d = false := by
  cases d <;> rfl

/-- The buffering chain never yields the opposite of the current heading,
provided the fallback pending direction is not opposite to it. -/
theorem buffer_core_not_opposite (cur nxt : Direction) (l r u d : Bool)
    (h : is_opposite_of nxt cur = false) :
    is_opposite_of (buffer_core cur nxt l r u d) cur = false := by
  revert h
  revert cur nxt l r u d
  decide

/-- C1 counterexample: pressing Escape with frame time 1/10 does not return
the fresh reset state itself: the frame time has already been accumulated
into the fresh state's move-timer. -/
theorem C1_counterexample : update fEsc sStart ≠ some (reset_state fEsc.rngReset) := by
  have h1 : update fEsc sStart =
      update { fEsc with escape := false } (reset_state fEsc.rngReset) :=
    update_escape_eq fEsc sStart rfl
  have h2 : update { fEsc with escape := false } (reset_state fEsc.rngReset) =
      some { reset_state fEsc.rngReset with
        next_direction := buffer_next_direction (reset_state fEsc.rngReset)
          { fEsc with escape := false }
        time_since_last_move :=
          (reset_state fEsc.rngReset).time_since_last_move + (1/10 : ℚ) } :=
    update_nontrigger _ _ rfl rfl (by norm_num [reset_state, fEsc, frame0])
  rw [h1, h2]
  intro h
  rw [Option.some.injEq] at h
  have := congrArg PlayState.time_since_last_move h
  simp [reset_state] at this

/-- C1 (amended): if Escape is newly pressed this frame, the state is
replaced by a freshly constructed reset state, and the remaining per-frame
processing (direction buffering, timer accumulation, possibly a grid step)
then runs on that fresh state within the same call. -/
theorem C1_escape_resets_then_continues (f : Frame) (s : PlayState)
    (he : f.escape = true) :
    update f s = update { f with escape := false } (reset_state f.rngReset) := by
  unfold update
  rw [he]
  rfl

/-- C1 witness: the amended claim at the concrete Escape frame. -/
theorem C1_witness :
    update fEsc sStart = update { fEsc with escape := false } (reset_state fEsc.rngReset) :=
  C1_escape_resets_then_continues fEsc sStart rfl

/-- C2: a dead state, with no restart pressed, passes through update
unchanged in every field. -/
theorem C2_dead_state_frozen (f : Frame) (s : PlayState) (hd : s.dead = true)
    (he : f.escape = false) : update f s = some s := by
  unfold update
  rw [he]
  simp [hd]

/-- C2 witness: the dead fresh state under the empty frame. -/
theorem C2_witness : update frame0 sDead = some sDead :=
  C2_dead_state_frozen frame0 sDead rfl rfl

/-- C7: reset_state always succeeds, with body exactly the two horizontally
adjacent top-left interior cells (2,1),(1,1), heading and pending heading
East, timer 0, not dead, fruit at integer coordinates in [1,8] on each
axis, and walls exactly the perimeter cells of the 11x11 board, without
duplicates. -/
theorem C7_reset_state_spec (r : Nat × Nat) :
    (reset_state r).parts = [⟨2, 1⟩, ⟨1, 1⟩] ∧
    (reset_state r).direction = Direction.East ∧
    (reset_state r).next_direction = Direction.East ∧
    (reset_state r).time_since_last_move = 0 ∧
    (reset_state r).dead = false ∧
    (∃ a b : ℕ, 1 ≤ a ∧ a ≤ 8 ∧ 1 ≤ b ∧ b ≤ 8 ∧
      (reset_state r).fruit = ⟨(a : ℚ), (b : ℚ)⟩) ∧
    (reset_state r).walls.Nodup ∧
    (∀ p ∈ (reset_state r).walls, p ∈ spec_perimeter) ∧
    (∀ p ∈ spec_perimeter, p ∈ (reset_state r).walls) := by
  have hw : (reset_state r).walls = (reset_state (0, 0)).walls := rfl
  refine ⟨rfl, rfl, rfl, rfl, rfl,
    ⟨1 + r.1 % 8, 1 + r.2 % 8, ?_, ?_, ?_, ?_, rfl⟩, ?_, ?_, ?_⟩
  · omega
  · have := Nat.mod_lt r.1 (show 0 < 8 by norm_num)
    omega
  · omega
  · have := Nat.mod_lt r.2 (show 0 < 8 by norm_num)
    omega
  · rw [hw]
    decide
  · rw [hw]
    decide
  · rw [hw]
    decide

/-- C10: extend_snake_body on a state with an empty body returns the state
unchanged in every field. -/
theorem C10_extend_empty_noop (s : PlayState) (h : s.parts = []) :
    extend_snake_body s = s := by
  unfold extend_snake_body
  rw [h]
  rfl

/-- C10 witness: the empty-body variant of the fresh state. -/
theorem C10_witness : extend_snake_body sEmpty = sEmpty :=
  C10_extend_empty_noop sEmpty rfl

/-- C3: over any run of non-triggering frames (no restart, nonnegative frame
times, accumulated timer staying under 0.2) only the pending direction and
the move-timer change, the timer accumulating the elapsed times. -/
theorem C3_nontrigger_frames (s : PlayState) (fs : List Frame)
    (hd : s.dead = false)
    (hfs : ∀ f ∈ fs, f.escape = false ∧ 0 ≤ f.dt)
    (ht : s.time_since_last_move + (fs.map Frame.dt).sum < 1/5) :
    ∃ nd : Direction, run fs s = some { s with
      next_direction := nd
      time_since_last_move := s.time_since_last_move + (fs.map Frame.dt).sum } := by
  induction fs generalizing s with
  | nil =>
    refine ⟨s.next_direction, ?_⟩
    simp [run]
  | cons f rest ih =>
    have hf := hfs f (List.mem_cons_self f rest)
    have hrest : ∀ g ∈ rest, g.escape = false ∧ 0 ≤ g.dt :=
      fun g hg => hfs g (List.mem_cons_of_mem f hg)
    have hsum : 0 ≤ (rest.map Frame.dt).sum := by
      apply List.sum_nonneg
      intro x hx
      obtain ⟨g, hg, rfl⟩ := List.mem_map.mp hx
      exact (hrest g hg).2
    have hts : s.time_since_last_move + (f.dt + (rest.map Frame.dt).sum) < 1/5 := by
      simpa using ht
    have ht1 : s.time_since_last_move + f.dt < 1/5 := by linarith
    obtain ⟨nd, hrun⟩ := ih { s with
        next_direction := buffer_next_direction s f
        time_since_last_move := s.time_since_last_move + f.dt }
      hd hrest (by
        show s.time_since_last_move + f.dt + (rest.map Frame.dt).sum < 1/5
        linarith)
    refine ⟨nd, ?_⟩
    show (update f s).bind (run rest) = _
    rw [update_nontrigger f s hf.1 hd ht1, Option.some_bind, hrun]
    simp [add_assoc]

/-- C3 witness: two 1/20-time frames on the fresh state. -/
theorem C3_witness : ∃ nd : Direction,
    run [fSmall, fSmall] sStart = some { sStart with
      next_direction := nd
      time_since_last_move :=
        sStart.time_since_last_move + ([fSmall, fSmall].map Frame.dt).sum } :=
  C3_nontrigger_frames sStart [fSmall, fSmall] rfl
    (by norm_num [fSmall, frame0])
    (by norm_num [sStart, reset_state, fSmall, frame0])

/-- C4: a triggering frame on a live non-empty-body state (here with the
head missing the fruit, so that no growth interferes) resets the timer to
exactly 0, commits the buffered pending direction as the heading, and
shifts the body: the new body is the old head moved one unit along the
committed direction (North y-1, South y+1, West x-1, East x+1) prepended
to the old body without its last segment, so the length is unchanged. -/
theorem C4_grid_step_shift (f : Frame) (s : PlayState) (p0 : Position)
    (rest : List Position)
    (he : f.escape = false) (hd : s.dead = false) (hp : s.parts = p0 :: rest)
    (ht : ¬ (s.time_since_last_move + f.dt < 1/5))
    (hfruit : are_basically_eq (next_position p0 (buffer_next_direction s f))
      s.fruit = false) :
    ∃ s', update f s = some s' ∧
      s'.time_since_last_move = 0 ∧
      s'.direction = buffer_next_direction s f ∧
      s'.next_direction = buffer_next_direction s f ∧
      s'.parts = (match buffer_next_direction s f with
        | .North => (⟨p0.x, p0.y - 1⟩ : Position)
        | .South => ⟨p0.x, p0.y + 1⟩
        | .West => ⟨p0.x - 1, p0.y⟩
        | .East => ⟨p0.x + 1, p0.y⟩) :: (p0 :: rest).dropLast ∧
      s'.parts.length = s.parts.length := by
  rw [update_trigger f s p0 rest he hd hp ht]
  simp only [hfruit, Bool.false_eq_true, if_false]
  refine ⟨_, rfl, rfl, rfl, rfl, ?_, ?_⟩
  · show next_position p0 (buffer_next_direction s f) :: (p0 :: rest).dropLast = _
    unfold next_position
    cases buffer_next_direction s f <;> rfl
  · show (next_position p0 (buffer_next_direction s f) :: (p0 :: rest).dropLast).length
      = s.parts.length
    simp [hp]

/-- C4 witness: the fresh state under the triggering frame; the head moves
East from (2,1) to (3,1), missing the fruit (1,1). -/
theorem C4_witness : ∃ s', update fTrig sStart = some s' ∧
    s'.time_since_last_move = 0 ∧
    s'.direction = buffer_next_direction sStart fTrig ∧
    s'.next_direction = buffer_next_direction sStart fTrig ∧
    s'.parts = (match buffer_next_direction sStart fTrig with
      | .North => (⟨(2 : ℚ), (1 : ℚ) - 1⟩ : Position)
      | .South => ⟨2, (1 : ℚ) + 1⟩
      | .West => ⟨(2 : ℚ) - 1, 1⟩
      | .East => ⟨(2 : ℚ) + 1, 1⟩) :: ([⟨2, 1⟩, ⟨1, 1⟩] : List Position).dropLast ∧
    s'.parts.length = sStart.parts.length :=
  C4_grid_step_shift fTrig sStart ⟨2, 1⟩ [⟨1, 1⟩] rfl rfl rfl
    (by norm_num [sStart, reset_state, fTrig, frame0])
    (by norm_num [sStart, reset_state, fTrig, frame0, buffer_next_direction,
      buffer_core, input_to_direction, next_position, are_basically_eq,
      random_position_on_board])

/-- extend_snake_body does not change the death flag. -/
theorem extend_snake_body_dead (s : PlayState) :
    (extend_snake_body s).dead = s.dead := by
  unfold extend_snake_body
  cases h : s.parts.getLast? <;> rfl

/-- extend_snake_body does not change the heading. -/
theorem extend_snake_body_direction (s : PlayState) :
    (extend_snake_body s).direction = s.direction := by
  unfold extend_snake_body
  cases h : s.parts.getLast? <;> rfl

/-- extend_snake_body does not change the pending heading. -/
theorem extend_snake_body_next_direction (s : PlayState) :
    (extend_snake_body s).next_direction = s.next_direction := by
  unfold extend_snake_body
  cases h : s.parts.getLast? <;> rfl

/-- extend_snake_body never shrinks the body. -/
theorem extend_snake_body_length (s : PlayState) :
    s.parts.length ≤ (extend_snake_body s).parts.length := by
  unfold extend_snake_body
  cases h : s.parts.getLast? <;> simp

/-- C5: on a triggering grid step (from a live state, whose death flag is
hence false), the resulting death flag is true iff the previous flag was set
or the shifted head is tolerance-equal to some non-head segment of the new
body or to some wall cell. -/
theorem C5_collision_death (f : Frame) (s : PlayState) (p0 : Position)
    (rest : List Position)
    (he : f.escape = false) (hd : s.dead = false) (hp : s.parts = p0 :: rest)
    (ht : ¬ (s.time_since_last_move + f.dt < 1/5)) :
    ∃ s', update f s = some s' ∧
      (s'.dead = true ↔ (s.dead = true ∨
        (∃ q ∈ (p0 :: rest).dropLast,
          are_basically_eq q (next_position p0 (buffer_next_direction s f)) = true) ∨
        (∃ q ∈ s.walls,
          are_basically_eq q (next_position p0 (buffer_next_direction s f)) = true))) := by
  rw [update_trigger f s p0 rest he hd hp ht]
  by_cases hm : are_basically_eq (next_position p0 (buffer_next_direction s f))
      s.fruit = true
  · simp only [hm, if_true]
    refine ⟨_, rfl, ?_⟩
    show (extend_snake_body _).dead = true ↔ _
    rw [extend_snake_body_dead]
    simp [hd, List.any_eq_true]
    exact or_comm
  · simp only [Bool.not_eq_true] at hm
    simp only [hm, Bool.false_eq_true, if_false]
    refine ⟨_, rfl, ?_⟩
    simp [hd, List.any_eq_true]
    exact or_comm

/-- C5 witness: the fresh state under the triggering frame; the head lands
on the free interior cell (3,1), so the death flag stays false. -/
theorem C5_witness : ∃ s', update fTrig sStart = some s' ∧
    (s'.dead = true ↔ (sStart.dead = true ∨
      (∃ q ∈ (([⟨2, 1⟩, ⟨1, 1⟩] : List Position)).dropLast,
        are_basically_eq q (next_position ⟨2, 1⟩ (buffer_next_direction sStart fTrig)) = true) ∨
      (∃ q ∈ sStart.walls,
        are_basically_eq q (next_position ⟨2, 1⟩ (buffer_next_direction sStart fTrig)) = true))) :=
  C5_collision_death fTrig sStart ⟨2, 1⟩ [⟨1, 1⟩] rfl rfl rfl
    (by norm_num [sStart, reset_state, fTrig, frame0])

/-- C6: on a triggering grid step, if the shifted head is tolerance-equal to
the fruit, exactly one segment is appended after the current tail, at the
tail shifted one unit opposite to the committed heading (North tail.y+1,
South tail.y-1, West tail.x+1, East tail.x-1), the length grows by exactly
one, and the new fruit has integer coordinates in [1,8]; otherwise the body
and the fruit are unchanged by the fruit stage. -/
theorem C6_fruit_growth (f : Frame) (s : PlayState) (p0 : Position)
    (rest : List Position) (tl : Position)
    (he : f.escape = false) (hd : s.dead = false) (hp : s.parts = p0 :: rest)
    (ht : ¬ (s.time_since_last_move + f.dt < 1/5))
    (htl : (next_position p0 (buffer_next_direction s f) ::
      (p0 :: rest).dropLast).getLast? = some tl) :
    (are_basically_eq (next_position p0 (buffer_next_direction s f)) s.fruit = true →
      ∃ s', update f s = some s' ∧
        s'.parts = (next_position p0 (buffer_next_direction s f) ::
          (p0 :: rest).dropLast) ++
          [(match buffer_next_direction s f with
            | .North => (⟨tl.x, tl.y + 1⟩ : Position)
            | .South => ⟨tl.x, tl.y - 1⟩
            | .West => ⟨tl.x + 1, tl.y⟩
            | .East => ⟨tl.x - 1, tl.y⟩)] ∧
        s'.parts.length = s.parts.length + 1 ∧
        s'.fruit = random_position_on_board f.rngFruit ∧
        (∃ a b : ℕ, 1 ≤ a ∧ a ≤ 8 ∧ 1 ≤ b ∧ b ≤ 8 ∧
          s'.fruit = ⟨(a : ℚ), (b : ℚ)⟩)) ∧
    (are_basically_eq (next_position p0 (buffer_next_direction s f)) s.fruit = false →
      ∃ s', update f s = some s' ∧
        s'.parts = next_position p0 (buffer_next_direction s f) ::
          (p0 :: rest).dropLast ∧
        s'.parts.length = s.parts.length ∧
        s'.fruit = s.fruit) := by
  constructor
  · intro hm
    rw [update_trigger f s p0 rest he hd hp ht]
    simp only [hm, if_true]
    refine ⟨_, rfl, ?_, ?_, rfl, ?_⟩
    · show (extend_snake_body _).parts = _
      rw [extend_snake_body_eq _ tl htl]
    · show (extend_snake_body _).parts.length = s.parts.length + 1
      rw [extend_snake_body_eq _ tl htl]
      simp [hp]
    · refine ⟨1 + f.rngFruit.1 % 8, 1 + f.rngFruit.2 % 8, ?_, ?_, ?_, ?_, rfl⟩
      · omega
      · have := Nat.mod_lt f.rngFruit.1 (show 0 < 8 by norm_num)
        omega
      · omega
      · have := Nat.mod_lt f.rngFruit.2 (show 0 < 8 by norm_num)
        omega
  · intro hm
    rw [update_trigger f s p0 rest he hd hp ht]
    simp only [hm, Bool.false_eq_true, if_false]
    refine ⟨_, rfl, rfl, ?_, rfl⟩
    show (next_position p0 (buffer_next_direction s f) ::
      (p0 :: rest).dropLast).length = s.parts.length
    simp [hp]

/-- C6 witness: fresh state with the fruit one step ahead of the head, under
the triggering frame. -/
theorem C6_witness :
    (are_basically_eq (next_position ⟨2, 1⟩ (buffer_next_direction sFruit fTrig)) sFruit.fruit = true →
      ∃ s', update fTrig sFruit = some s' ∧
        s'.parts = (next_position ⟨2, 1⟩ (buffer_next_direction sFruit fTrig) ::
          (([⟨2, 1⟩, ⟨1, 1⟩] : List Position)).dropLast) ++
          [(match buffer_next_direction sFruit fTrig with
            | .North => (⟨(2 : ℚ), (1 : ℚ) + 1⟩ : Position)
            | .South => ⟨(2 : ℚ), (1 : ℚ) - 1⟩
            | .West => ⟨(2 : ℚ) + 1, (1 : ℚ)⟩
            | .East => ⟨(2 : ℚ) - 1, (1 : ℚ)⟩)] ∧
        s'.parts.length = sFruit.parts.length + 1 ∧
        s'.fruit = random_position_on_board fTrig.rngFruit ∧
        (∃ a b : ℕ, 1 ≤ a ∧ a ≤ 8 ∧ 1 ≤ b ∧ b ≤ 8 ∧
          s'.fruit = ⟨(a : ℚ), (b : ℚ)⟩)) ∧
    (are_basically_eq (next_position ⟨2, 1⟩ (buffer_next_direction sFruit fTrig)) sFruit.fruit = false →
      ∃ s', update fTrig sFruit = some s' ∧
        s'.parts = next_position ⟨2, 1⟩ (buffer_next_direction sFruit fTrig) ::
          (([⟨2, 1⟩, ⟨1, 1⟩] : List Position)).dropLast ∧
        s'.parts.length = sFruit.parts.length ∧
        s'.fruit = sFruit.fruit) :=
  C6_fruit_growth fTrig sFruit ⟨2, 1⟩ [⟨1, 1⟩] ⟨2, 1⟩ rfl rfl rfl
    (by norm_num [sFruit, sStart, reset_state, fTrig, frame0]) rfl

/-- For an Escape-free frame, update preserves the invariant that the
pending direction is not the opposite of the heading, and never commits a
heading opposite to the heading it started the frame with. -/
theorem update_nonopposite_aux (f : Frame) (s : PlayState) (s' : PlayState)
    (he : f.escape = false)
    (hInv : is_opposite_of s.next_direction s.direction = false)
    (h : update f s = some s') :
    is_opposite_of s'.next_direction s'.direction = false ∧
    is_opposite_of s'.direction s.direction = false := by
  by_cases hd : s.dead = true
  · rw [update_dead_frozen f s he hd, Option.some.injEq] at h
    subst h
    exact ⟨hInv, is_opposite_of_self _⟩
  · have hd' : s.dead = false := by simpa using hd
    by_cases ht : s.time_since_last_move + f.dt < 1/5
    · rw [update_nontrigger f s he hd' ht, Option.some.injEq] at h
      subst h
      constructor
      · show is_opposite_of (buffer_next_direction s f) s.direction = false
        exact buffer_core_not_opposite _ _ _ _ _ _ hInv
      · exact is_opposite_of_self _
    · cases hp : s.parts with
      | nil =>
        rw [update_empty_trigger f s he hd' hp ht] at h
        simp at h
      | cons p0 rest =>
        rw [update_trigger f s p0 rest he hd' hp ht] at h
        by_cases hm : are_basically_eq
            (next_position p0 (buffer_next_direction s f)) s.fruit = true
        · simp only [hm, if_true, Option.some.injEq] at h
          subst h
          constructor
          · show is_opposite_of (extend_snake_body _).next_direction
              (extend_snake_body _).direction = false
            rw [extend_snake_body_next_direction, extend_snake_body_direction]
            exact is_opposite_of_self _
          · show is_opposite_of (extend_snake_body _).direction s.direction = false
            rw [extend_snake_body_direction]
            exact buffer_core_not_opposite _ _ _ _ _ _ hInv
        · simp only [Bool.not_eq_true] at hm
          simp only [hm, Bool.false_eq_true, if_false, Option.some.injEq] at h
          subst h
          constructor
          · exact is_opposite_of_self _
          · exact buffer_core_not_opposite _ _ _ _ _ _ hInv

/-- C8: update preserves the invariant that the pending direction is never
the opposite of the current heading (a pressed opposite key is rejected and
the previous pending direction survives), and the heading after the call is
never the opposite of the heading held right before the movement logic
(which is East, from the fresh state, when Escape restarted the frame). -/
theorem C8_no_reversal (f : Frame) (s : PlayState) (s' : PlayState)
    (hInv : is_opposite_of s.next_direction s.direction = false)
    (h : update f s = some s') :
    is_opposite_of s'.next_direction s'.direction = false ∧
    is_opposite_of s'.direction
      (if f.escape = true then (reset_state f.rngReset).direction
        else s.direction) = false := by
  by_cases hesc : f.escape = true
  · rw [update_escape_eq f s hesc] at h
    have hro : is_opposite_of (reset_state f.rngReset).next_direction
        (reset_state f.rngReset).direction = false := rfl
    obtain ⟨h1, h2⟩ := update_nonopposite_aux _ _ _ rfl hro h
    exact ⟨h1, by rwa [if_pos hesc]⟩
  · have he : f.escape = false := by simpa using hesc
    obtain ⟨h1, h2⟩ := update_nonopposite_aux f s s' he hInv h
    exact ⟨h1, by rwa [if_neg hesc]⟩

/-- C8 witness: the dead fresh state, frozen by the empty frame. -/
theorem C8_witness :
    is_opposite_of sDead.next_direction sDead.direction = false ∧
    is_opposite_of sDead.direction
      (if frame0.escape = true then (reset_state frame0.rngReset).direction
        else sDead.direction) = false :=
  C8_no_reversal frame0 sDead sDead rfl (update_dead_frozen frame0 sDead rfl rfl)

/-- Replacing the fruit after extend_snake_body never shrinks the body. -/
theorem extend_length_ge (x : PlayState) (v : Position) :
    x.parts.length ≤ ({ extend_snake_body x with fruit := v } : PlayState).parts.length :=
  extend_snake_body_length x

/-- For an Escape-free frame, the body length never decreases. -/
theorem update_length_aux (f : Frame) (s : PlayState) (s' : PlayState)
    (he : f.escape = false) (h : update f s = some s') :
    s.parts.length ≤ s'.parts.length := by
  by_cases hd : s.dead = true
  · rw [update_dead_frozen f s he hd, Option.some.injEq] at h
    subst h
    exact le_refl _
  · have hd' : s.dead = false := by simpa using hd
    by_cases ht : s.time_since_last_move + f.dt < 1/5
    · rw [update_nontrigger f s he hd' ht, Option.some.injEq] at h
      subst h
      exact le_refl _
    · cases hp : s.parts with
      | nil =>
        rw [update_empty_trigger f s he hd' hp ht] at h
        simp at h
      | cons p0 rest =>
        rw [update_trigger f s p0 rest he hd' hp ht] at h
        by_cases hm : are_basically_eq
            (next_position p0 (buffer_next_direction s f)) s.fruit = true
        · simp only [hm, if_true, Option.some.injEq] at h
          subst h
          refine le_trans (le_of_eq ?_)
            (extend_length_ge _ (random_position_on_board f.rngFruit))
          simp
        · simp only [Bool.not_eq_true] at hm
          simp only [hm, Bool.false_eq_true, if_false, Option.some.injEq] at h
          subst h
          exact le_of_eq (by simp)

/-- C9 counterexample: an Escape restart shrinks a three-segment body to the
fresh two-segment body, so the length is not monotone across every call. -/
theorem C9_counterexample :
    ((update fEsc sLong).map fun t => t.parts.length) = some 2 ∧
    sLong.parts.length = 3 := by
  have h1 : update fEsc sLong =
      update { fEsc with escape := false } (reset_state fEsc.rngReset) :=
    update_escape_eq fEsc sLong rfl
  have h2 : update { fEsc with escape := false } (reset_state fEsc.rngReset) =
      some { reset_state fEsc.rngReset with
        next_direction := buffer_next_direction (reset_state fEsc.rngReset)
          { fEsc with escape := false }
        time_since_last_move :=
          (reset_state fEsc.rngReset).time_since_last_move + (1/10 : ℚ) } :=
    update_nontrigger _ _ rfl rfl (by norm_num [reset_state, fEsc, frame0])
  rw [h1, h2]
  exact ⟨rfl, rfl⟩

/-- C9 (amended): starting from a body of length at least 2, after any
single update call the length is still at least 2; and when the restart
input is not pressed the length never decreases (an Escape restart instead
returns it to exactly 2, possibly smaller than before). -/
theorem C9_length_monotone (f : Frame) (s : PlayState) (s' : PlayState)
    (hlen : 2 ≤ s.parts.length) (h : update f s = some s') :
    2 ≤ s'.parts.length ∧
    (f.escape = false → s.parts.length ≤ s'.parts.length) := by
  by_cases hesc : f.escape = true
  · rw [update_escape_eq f s hesc] at h
    have h2 := update_length_aux _ _ _ rfl h
    constructor
    · exact le_trans (le_of_eq rfl) h2
    · intro hfe
      rw [hesc] at hfe
      cases hfe
  · have he : f.escape = false := by simpa using hesc
    have h2 := update_length_aux f s s' he h
    exact ⟨le_trans hlen h2, fun _ => h2⟩

/-- C9 witness: the dead fresh state, frozen by the empty frame. -/
theorem C9_witness : 2 ≤ sDead.parts.length ∧
    (frame0.escape = false → sDead.parts.length ≤ sDead.parts.length) :=
  C9_length_monotone frame0 sDead sDead (by decide)
    (update_dead_frozen frame0 sDead rfl rfl)

/-- C7 witness: the reset state at the concrete RNG draw (0, 0). -/
theorem C7_witness :
    (reset_state ((0, 0) : Nat × Nat)).parts = [⟨2, 1⟩, ⟨1, 1⟩] ∧
    (reset_state ((0, 0) : Nat × Nat)).direction = Direction.East ∧
    (reset_state ((0, 0) : Nat × Nat)).next_direction = Direction.East ∧
    (reset_state ((0, 0) : Nat × Nat)).time_since_last_move = 0 ∧
    (reset_state ((0, 0) : Nat × Nat)).dead = false ∧
    (∃ a b : ℕ, 1 ≤ a ∧ a ≤ 8 ∧ 1 ≤ b ∧ b ≤ 8 ∧
      (reset_state ((0, 0) : Nat × Nat)).fruit = ⟨(a : ℚ), (b : ℚ)⟩) ∧
    (reset_state ((0, 0) : Nat × Nat)).walls.Nodup ∧
    (∀ p ∈ (reset_state ((0, 0) : Nat × Nat)).walls, p ∈ spec_perimeter) ∧
    (∀ p ∈ spec_perimeter, p ∈ (reset_state ((0, 0) : Nat × Nat)).walls) :=
  C7_reset_state_spec (0, 0)
